import Mathlib

/-!
Verification development for the sqlparser repository (Go).

The parser in `src/sql.go` is embedded shallowly: Go strings become `List Char`,
the imperative state machine `parser.doParse` becomes a single-iteration function
`stepOnce` iterated with fuel, and fallible results become an explicit result type.
`log.Fatal` (which terminates the Go process) is modelled as a distinct `fatal`
outcome, and an out-of-range slice index (a Go runtime panic) as `panicked`;
neither is a returned error.
-/

namespace SqlParser

/-- Strings are modelled as lists of characters (Go byte strings; all inputs of
interest are ASCII, where Go's `strings.ToUpper` agrees with `Char.toUpper`). -/
abbrev Str := List Char

/-- Uppercasing, `strings.ToUpper` restricted to ASCII. -/
def upperStr (s : Str) : Str := s.map Char.toUpper

/-- Whitespace class of Go's regexp `\s`. -/
def isWs (c : Char) : Bool := c = ' ' || c = '\t' || c = '\n' || c = '\x0c' || c = '\r'

mutual
/-- Go `regexp.MustCompile("\\s+").ReplaceAllString(s, " ")`: each maximal run of
whitespace becomes a single space. -/
def collapseWs : Str → Str
| [] => []
| c :: cs => if isWs c then ' ' :: collapseAfterWs cs else c :: collapseWs cs

/-- Helper of `collapseWs`: skip the rest of a whitespace run. -/
def collapseAfterWs : Str → Str
| [] => []
| c :: cs => if isWs c then collapseAfterWs cs else c :: collapseWs cs
end

/-- Go `strings.Replace(s, "`", "", -1)`: drop every backtick. -/
def stripBackticks (s : Str) : Str := s.filter (fun c => ¬ (c = '`'))

/-- Go `strings.TrimSpace`. -/
def trimStr (s : Str) : Str := ((s.dropWhile isWs).reverse.dropWhile isWs).reverse

/-- Query kind (Go `query.QueryType`; the package itself is not under src/, the
enum is reconstructed from its uses in sql.go and spec section 3; the Go zero
value is the Unknown kind). -/
inductive QueryType
| unknownType | select | insert | update | delete
deriving DecidableEq, Repr

/-- Condition operator (Go `query.Operator`; zero value is the unknown operator). -/
inductive Operator
| unknownOperator | eq | gt | gte | lt | lte | ne
deriving DecidableEq, Repr

/-- Go `query.Condition`. Zero values are empty strings and `false` flags. -/
structure Condition where
  Operand1 : Str := []
  Operand1IsField : Bool := false
  Operator : Operator := .unknownOperator
  Operand2 : Str := []
  Operand2IsField : Bool := false
deriving DecidableEq, Repr

/-- Go `query.JoinCondition`. -/
structure JoinCondition where
  Table1 : Str := []
  Operand1 : Str := []
  Operator : Operator := .unknownOperator
  Table2 : Str := []
  Operand2 : Str := []
deriving DecidableEq, Repr

/-- Go `query.Join` (field `Type` is renamed `Typ`: `Type` is a Lean keyword). -/
structure Join where
  Typ : Str := []
  Table : Str := []
  Conditions : List JoinCondition := []
deriving DecidableEq, Repr

/-- Go `query.Query`, the AST root (field `Type` renamed `Typ`). `Updates` is a
Go `map[string]string`; it is modelled as an association list with last-write-wins
updates, which the claims never distinguish from a hash map. `MaxRows` is a Go
`int`, modelled as `Int` (overflow of `strconv.Atoi` is not modelled). -/
structure Query where
  Typ : QueryType := .unknownType
  TableName : Str := []
  Database : Str := []
  Conditions : List Condition := []
  Updates : List (Str × Str) := []
  Inserts : List (List Str) := []
  Fields : List Str := []
  OrderFields : List Str := []
  OrderDir : List Str := []
  MaxRows : Int := 0
  Joins : List Join := []
deriving DecidableEq, Repr

/-- The parser's step enumerator (Go `step` constants in sql.go). -/
inductive Step
| stepType | stepTop
| stepSelectField | stepSelectFrom | stepSelectComma | stepSelectFromTable
| stepInsertTable | stepInsertFieldsOpeningParens | stepInsertFields
| stepInsertFieldsCommaOrClosingParens | stepInsertValuesOpeningParens
| stepInsertValuesRWord | stepInsertValues | stepInsertValuesCommaOrClosingParens
| stepInsertValuesCommaBeforeOpeningParens
| stepUpdateTable | stepUpdateSet | stepUpdateField | stepUpdateEquals
| stepUpdateValue | stepUpdateComma
| stepDeleteFromTable
| stepWhere | stepWhereField | stepWhereOperator | stepWhereValue | stepWhereAnd
| stepOrder | stepOrderField | stepOrderDirectionOrComma
| stepJoin | stepJoinTable | stepJoinCondition
deriving DecidableEq, Repr

/-- Go `parser` struct (the always-nil `err` field is omitted: `doParse` never
writes it, so the `return p.query, p.err` at end of input returns a nil error). -/
structure Parser where
  i : Nat
  sql : Str
  step : Step
  query : Query
  nextUpdateField : Str
deriving DecidableEq, Repr

/-- The reserved-word catalogue `reservedWords` of sql.go, in declaration order. -/
def reservedWords : List Str :=
  ["(", ")", ">=", "<=", "!=", ",", "=", ">", "<", "SELECT", "TOP", "INSERT INTO",
   "VALUES", "UPDATE", "DELETE FROM", "WHERE", "FROM", "SET",
   "ON DUPLICATE KEY UPDATE", "ORDER BY", "ASC", "DESC", "LEFT JOIN", "RIGHT JOIN",
   "INNER JOIN", "JOIN", "ON"].map String.data

/-- The keyword-only catalogue `reservedWordsOnly` of sql.go. -/
def reservedWordsOnly : List Str :=
  ["SELECT", "TOP", "INSERT INTO", "VALUES", "UPDATE", "DELETE FROM", "WHERE",
   "FROM", "SET", "ON DUPLICATE KEY UPDATE", "ORDER BY", "ASC", "DESC",
   "LEFT JOIN", "RIGHT JOIN", "INNER JOIN", "JOIN", "ON"].map String.data

/-- Character class of Go's per-character regexp `[\.\-a-zA-Z0-9_*]` in
`peekIdentifierWithLength`. -/
def isIdentChar (c : Char) : Bool :=
  c = '.' || c = '-' || ('a' ≤ c && c ≤ 'z') || ('A' ≤ c && c ≤ 'Z') ||
  ('0' ≤ c && c ≤ '9') || c = '_' || c = '*'

/-- Whether `s` contains a match of Go's unanchored regexp `[a-zA-Z_][a-zA-Z_0-9]*`,
i.e. contains at least one ASCII letter or underscore. -/
def containsLetterUnd (s : Str) : Bool :=
  s.any (fun c => ('a' ≤ c && c ≤ 'z') || ('A' ≤ c && c ≤ 'Z') || c = '_')

/-- Go `isIdentifier` in sql.go: not (case-insensitively) in the full reserved
catalogue, and matching the unanchored identifier regexp. -/
def isIdentifier (s : Str) : Bool :=
  !(reservedWords.contains (upperStr s)) && containsLetterUnd s

/-- Go `isReservedWord` in sql.go (note: despite its name it returns `false` for
reserved words): not in the keyword-only catalogue, and matching the unanchored
identifier regexp. -/
def isReservedWord (s : Str) : Bool :=
  !(reservedWordsOnly.contains (upperStr s)) && containsLetterUnd s

/-- Go `isIdentifierOrAsterisk` in sql.go. -/
def isIdentifierOrAsterisk (s : Str) : Bool :=
  isIdentifier s || s == "*".data

/-- Characters before the first single-quote of `l`, or `none` if `l` has no
single-quote (the scan of `peekQuotedStringWithLength`). -/
def takeUntilQuote : Str → Option Str
| [] => none
| c :: cs => if c = '\'' then some [] else (takeUntilQuote cs).map (c :: ·)

/-- Go `parser.peekQuotedStringWithLength`: at a single-quote, the token is the
text up to the next single-quote (length counts both quotes); otherwise, or when
no closing quote exists, an empty token of length 0. -/
def peekQuoted (sql : Str) (i : Nat) : Str × Nat :=
  if sql.length < i then ([], 0)
  else match sql.drop i with
    | '\'' :: tail =>
      match takeUntilQuote tail with
      | some s => (s, s.length + 2)
      | none => ([], 0)
    | _ => ([], 0)

/-- Go `parser.peekIdentifierWithLength`: longest run of identifier characters. -/
def peekIdent (sql : Str) (i : Nat) : Str × Nat :=
  let t := (sql.drop i).takeWhile isIdentChar
  (t, t.length)

/-- The reserved-word loop of Go `parser.peekWithLength`: the first catalogue
entry whose text case-insensitively matches the input prefix (length-bounded). -/
def findReserved (sql : Str) (i : Nat) : List Str → Option Str
| [] => none
| rw :: rest =>
  if upperStr ((sql.drop i).take rw.length) = rw then some rw
  else findReserved sql i rest

/-- Go `parser.peekWithLength`: first reserved word (in catalogue order) whose
case-folded text matches the input prefix, else a quoted string at a quote,
else an identifier run. -/
def peekWithLength (sql : Str) (i : Nat) : Str × Nat :=
  if i ≥ sql.length then ([], 0)
  else match findReserved sql i reservedWords with
    | some rw => (rw, rw.length)
    | none =>
      match sql.drop i with
      | '\'' :: _ => peekQuoted sql i
      | _ => peekIdent sql i

/-- Go `parser.peek`. -/
def peek (p : Parser) : Str := (peekWithLength p.sql p.i).1

/-- Go `parser.popWhitespace`: advance past plain spaces. -/
def skipSpaces (sql : Str) (i : Nat) : Nat :=
  i + ((sql.drop i).takeWhile (· = ' ')).length

/-- Go `parser.pop`: consume the peeked token plus following spaces, returning it. -/
def popTok (p : Parser) : Str × Parser :=
  let (tok, l) := peekWithLength p.sql p.i
  (tok, { p with i := skipSpaces p.sql (p.i + l) })

/-- Consume the peeked token, discarding it (Go `p.pop()` used for effect). -/
def popP (p : Parser) : Parser := (popTok p).2

/-- A single-quote character (used to spell error messages that contain one). -/
def sq : Char := '\''

/-- Go `strings.Split(s, ".")`. Never returns an empty list. -/
def splitDot : Str → List Str
| [] => [[]]
| c :: cs =>
  if c = '.' then [] :: splitDot cs
  else match splitDot cs with
    | h :: t => (c :: h) :: t
    | [] => [[c]]

/-- Whether `pre` is a prefix of `s` (helper for Go `strings.Contains`). -/
def startsWithStr : Str → Str → Bool
| _, [] => true
| [], _ :: _ => false
| a :: as, b :: bs => a == b && startsWithStr as bs

/-- Go `strings.Contains hay needle`. -/
def strContains : Str → Str → Bool
| [], needle => startsWithStr [] needle
| s@(_ :: t), needle => startsWithStr s needle || strContains t needle

/-- Assignment `m[k] = v` on the association-list model of a Go map. -/
def mapSet (m : List (Str × Str)) (k v : Str) : List (Str × Str) :=
  match m with
  | [] => [(k, v)]
  | (k', v') :: rest => if k' = k then (k, v) :: rest else (k', v') :: mapSet rest k v

/-- ASCII digit test for `strconv.Atoi`. -/
def isDigitChar (c : Char) : Bool := '0' ≤ c && c ≤ '9'

/-- Value of a nonempty digit run. -/
def digitsVal (ds : Str) : Nat := ds.foldl (fun a c => 10 * a + (c.toNat - 48)) 0

/-- Go `strconv.Atoi`: optional sign then one or more digits, else an error
(`none`). Overflow of the 64-bit range is not modelled. -/
def atoi (s : Str) : Option Int :=
  match s with
  | '+' :: ds => if ds ≠ [] ∧ ds.all isDigitChar then some (Int.ofNat (digitsVal ds)) else none
  | '-' :: ds => if ds ≠ [] ∧ ds.all isDigitChar then some (-(Int.ofNat (digitsVal ds))) else none
  | ds => if ds ≠ [] ∧ ds.all isDigitChar then some (Int.ofNat (digitsVal ds)) else none

/-- The operator switch shared verbatim by `stepWhereOperator` and
`stepJoinCondition` in sql.go; `none` is the default (unknown-operator) case. -/
def opFromTok (t : Str) : Option Operator :=
  if t = "=".data then some .eq
  else if t = ">".data then some .gt
  else if t = ">=".data then some .gte
  else if t = "<".data then some .lt
  else if t = "<=".data then some .lte
  else if t = "!=".data then some .ne
  else none

/-- Error message of the `stepType` default branch. -/
def errInvalidQueryType : Str := "invalid query type".data
/-- Message passed to `log.Fatal` in `stepTop`. -/
def fatalTopMsg : Str := "Unable to convert integer in TOP expression".data
/-- Error of `stepSelectField`. -/
def errSelectField : Str := "at SELECT: expected field to SELECT".data
/-- Error of `stepSelectComma`. -/
def errSelectCommaOrFrom : Str := "at SELECT: expected comma or FROM".data
/-- Error of `stepSelectFrom`. -/
def errSelectFrom : Str := "at SELECT: expected FROM".data
/-- Error of `stepSelectFromTable`. -/
def errSelectTable : Str := "at SELECT: expected quoted table name".data
/-- Error of `stepInsertTable`. -/
def errInsertTable : Str := "at INSERT INTO: expected quoted table name".data
/-- Error of `stepDeleteFromTable`. -/
def errDeleteTable : Str := "at DELETE FROM: expected quoted table name".data
/-- Error of `stepUpdateTable`. -/
def errUpdateTable : Str := "at UPDATE: expected quoted table name".data
/-- Error of `stepUpdateSet` (the Go literal quotes SET in single quotes). -/
def errUpdateSet : Str := "at UPDATE: expected ".data ++ [sq] ++ "SET".data ++ [sq]
/-- Error of `stepUpdateField`. -/
def errUpdateField : Str := "at UPDATE: expected at least one field to update".data
/-- Error of `stepUpdateEquals`. -/
def errUpdateEquals : Str := "at UPDATE: expected ".data ++ [sq] ++ "=".data ++ [sq]
/-- Error of `stepUpdateValue`. -/
def errUpdateValue : Str := "at UPDATE: expected quoted value".data
/-- Error of `stepUpdateComma`. -/
def errUpdateComma : Str := "at UPDATE: expected ".data ++ [sq] ++ ",".data ++ [sq]
/-- Error of `stepWhere`. -/
def errWhere : Str := "expected WHERE".data
/-- Error of `stepWhereField`. -/
def errWhereField : Str := "at WHERE: expected field".data
/-- Error of the `stepWhereOperator` default branch. -/
def errWhereUnknownOp : Str := "at WHERE: unknown operator".data
/-- Error of `stepWhereValue`. -/
def errWhereValue : Str := "at WHERE: expected quoted value".data
/-- Error of `stepWhereAnd`. -/
def errAnd : Str := "expected AND".data
/-- Error of `stepOrder`. -/
def errOrder : Str := "expected ORDER".data
/-- Error of `stepOrderField`. -/
def errOrderField : Str := "at ORDER BY: expected field to ORDER".data
/-- Error of the malformed join operands in `stepJoinCondition`. -/
def errOnForm : Str := "at ON: expected <tablename>.<fieldname>".data
/-- Error of the `stepJoinCondition` operator default branch. -/
def errOnUnknownOp : Str := "at ON: unknown operator".data
/-- Error of `stepInsertFieldsOpeningParens` and `stepInsertValuesOpeningParens`. -/
def errInsertOpeningParens : Str := "at INSERT INTO: expected opening parens".data
/-- Error of `stepInsertFields`. -/
def errInsertFieldsAtLeastOne : Str := "at INSERT INTO: expected at least one field to insert".data
/-- Error of `stepInsertFieldsCommaOrClosingParens` and `stepInsertValuesCommaOrClosingParens`. -/
def errInsertCommaOrClosing : Str := "at INSERT INTO: expected comma or closing parens".data
/-- Error of `stepInsertValuesRWord` (the Go literal quotes VALUES in single quotes). -/
def errInsertValuesRWord : Str := "at INSERT INTO: expected ".data ++ [sq] ++ "VALUES".data ++ [sq]
/-- Error of `stepInsertValues`. -/
def errInsertValue : Str := "at INSERT INTO: expected quoted value".data
/-- The insert-shape error (the Go literal has an apostrophe in doesn-t). -/
def errInsertShape : Str :=
  "at INSERT INTO: value count doesn".data ++ [sq] ++ "t match field count".data
/-- Error of `stepInsertValuesCommaBeforeOpeningParens`. -/
def errInsertExpectedComma : Str := "at INSERT INTO: expected comma".data
/-- Validator error: empty WHERE clause. -/
def errEmptyWhere : Str := "at WHERE: empty WHERE clause".data
/-- Validator error: unknown query type. -/
def errTypeEmpty : Str := "query type cannot be empty".data
/-- Validator error: empty table name. -/
def errTableEmpty : Str := "table name cannot be empty".data
/-- Validator error: WHERE mandatory for UPDATE and DELETE. -/
def errMandatoryWhere : Str := "at WHERE: WHERE clause is mandatory for UPDATE & DELETE".data
/-- Validator error: condition without operator. -/
def errCondNoOp : Str := "at WHERE: condition without operator".data
/-- Validator error: condition with empty left side operand. -/
def errCondEmptyLeft : Str := "at WHERE: condition with empty left side operand".data
/-- Validator error: condition with empty right side operand. -/
def errCondEmptyRight : Str := "at WHERE: condition with empty right side operand".data
/-- Validator error: INSERT needs at least one row. -/
def errNeedRow : Str := "at INSERT INTO: need at least one row to insert".data

/-- Result of one iteration of the `doParse` loop body: a `return` from the Go
function (with the final parser, whose query is the returned one), a `log.Fatal`
(process termination), a runtime panic from indexing an empty slice, or fall
through to the next iteration. -/
inductive StepRes
| ret (p : Parser) (e : Option Str)
| fatal (m : Str)
| panicked
| cont (p : Parser)
deriving DecidableEq, Repr

/-- The `stepType` case of the `switch` in Go `parser.doParse`. -/
def runStepType (p : Parser) : StepRes :=
  let t := upperStr (peek p)
  if t = "SELECT".data then
    let p1 := popP { p with query := { p.query with Typ := .select } }
    if upperStr (peek p1) = "TOP".data then .cont { p1 with step := .stepTop }
    else .cont { p1 with step := .stepSelectField }
  else if t = "INSERT INTO".data then
    .cont { popP { p with query := { p.query with Typ := .insert } } with step := .stepInsertTable }
  else if t = "UPDATE".data then
    .cont { popP { p with query := { p.query with Typ := .update, Updates := [] } } with step := .stepUpdateTable }
  else if t = "DELETE FROM".data then
    .cont { popP { p with query := { p.query with Typ := .delete } } with step := .stepDeleteFromTable }
  else .ret p (some errInvalidQueryType)

/-- The `stepTop` case of the `switch` in Go `parser.doParse`. -/
def runStepTop (p : Parser) : StepRes :=
  let p1 := popP p
  let (tok, p2) := popTok p1
  match atoi tok with
  | none => .fatal fatalTopMsg
  | some m => .cont { p2 with query := { p2.query with MaxRows := m }, step := .stepSelectField }

/-- The `stepSelectField` case of the `switch` in Go `parser.doParse`. -/
def runStepSelectField (p : Parser) : StepRes :=
  let identifier := peek p
  if ¬ isIdentifierOrAsterisk identifier then .ret p (some errSelectField)
  else
    let p1 := popP { p with query := { p.query with Fields := p.query.Fields ++ [identifier] } }
    if upperStr (peek p1) = "FROM".data then .cont { p1 with step := .stepSelectFrom }
    else .cont { p1 with step := .stepSelectComma }

/-- The `stepSelectComma` case of the `switch` in Go `parser.doParse`. -/
def runStepSelectComma (p : Parser) : StepRes :=
  if peek p ≠ ",".data then .ret p (some errSelectCommaOrFrom)
  else .cont { popP p with step := .stepSelectField }

/-- The `stepSelectFrom` case of the `switch` in Go `parser.doParse`. -/
def runStepSelectFrom (p : Parser) : StepRes :=
  if upperStr (peek p) ≠ "FROM".data then .ret p (some errSelectFrom)
  else .cont { popP p with step := .stepSelectFromTable }

/-- The `stepSelectFromTable` case of the `switch` in Go `parser.doParse`. -/
def runStepSelectFromTable (p : Parser) : StepRes :=
  let tableName := peek p
  if tableName.length = 0 then .ret p (some errSelectTable)
  else
    let q1 := if strContains tableName ".".data then
        { p.query with Database := (splitDot tableName).headD [],
                       TableName := (splitDot tableName).getD 1 [] }
      else { p.query with TableName := tableName }
    let p1 := popP { p with query := q1 }
    let look := peek p1
    if upperStr look = "WHERE".data then .cont { p1 with step := .stepWhere }
    else if upperStr look = "ORDER BY".data then .cont { p1 with step := .stepOrder }
    else if strContains (upperStr look) "JOIN".data then .cont { p1 with step := .stepJoin }
    else .cont p1

/-- The `stepInsertTable` case of the `switch` in Go `parser.doParse`. -/
def runStepInsertTable (p : Parser) : StepRes :=
  let tableName := peek p
  if tableName.length = 0 then .ret p (some errInsertTable)
  else
    let q1 := if strContains tableName ".".data then
        { p.query with Database := (splitDot tableName).headD [],
                       TableName := (splitDot tableName).getD 1 [] }
      else { p.query with TableName := tableName }
    .cont { popP { p with query := q1 } with step := .stepInsertFieldsOpeningParens }

/-- The `stepDeleteFromTable` case of the `switch` in Go `parser.doParse`. -/
def runStepDeleteFromTable (p : Parser) : StepRes :=
  let tableName := peek p
  if tableName.length = 0 then .ret p (some errDeleteTable)
  else
    let q1 := if strContains tableName ".".data then
        { p.query with Database := (splitDot tableName).headD [],
                       TableName := (splitDot tableName).getD 1 [] }
      else { p.query with TableName := tableName }
    .cont { popP { p with query := q1 } with step := .stepWhere }

/-- The `stepUpdateTable` case of the `switch` in Go `parser.doParse`. -/
def runStepUpdateTable (p : Parser) : StepRes :=
  let tableName := peek p
  if tableName.length = 0 then .ret p (some errUpdateTable)
  else
    let q1 := if strContains tableName ".".data then
        { p.query with Database := (splitDot tableName).headD [],
                       TableName := (splitDot tableName).getD 1 [] }
      else { p.query with TableName := tableName }
    .cont { popP { p with query := q1 } with step := .stepUpdateSet }

/-- The `stepUpdateSet` case of the `switch` in Go `parser.doParse`. -/
def runStepUpdateSet (p : Parser) : StepRes :=
  if peek p ≠ "SET".data then .ret p (some errUpdateSet)
  else .cont { popP p with step := .stepUpdateField }

/-- The `stepUpdateField` case of the `switch` in Go `parser.doParse`. -/
def runStepUpdateField (p : Parser) : StepRes :=
  let identifier := peek p
  if !(isIdentifier identifier) && isReservedWord identifier then .ret p (some errUpdateField)
  else .cont { popP { p with nextUpdateField := identifier } with step := .stepUpdateEquals }

/-- The `stepUpdateEquals` case of the `switch` in Go `parser.doParse`. -/
def runStepUpdateEquals (p : Parser) : StepRes :=
  if peek p ≠ "=".data then .ret p (some errUpdateEquals)
  else .cont { popP p with step := .stepUpdateValue }

/-- The `stepUpdateValue` case of the `switch` in Go `parser.doParse`. -/
def runStepUpdateValue (p : Parser) : StepRes :=
  let (qv0, l0) := peekQuoted p.sql p.i
  let (qv, l) := if l0 = 0 then peekWithLength p.sql p.i else (qv0, l0)
  if l = 0 then .ret p (some errUpdateValue)
  else
    let p1 := popP { p with
      query := { p.query with Updates := mapSet p.query.Updates p.nextUpdateField qv },
      nextUpdateField := [] }
    if upperStr (peek p1) = "WHERE".data then .cont { p1 with step := .stepWhere }
    else .cont { p1 with step := .stepUpdateComma }

/-- The `stepUpdateComma` case of the `switch` in Go `parser.doParse`. -/
def runStepUpdateComma (p : Parser) : StepRes :=
  if peek p ≠ ",".data then .ret p (some errUpdateComma)
  else .cont { popP p with step := .stepUpdateField }

/-- The `stepWhere` case of the `switch` in Go `parser.doParse`. -/
def runStepWhere (p : Parser) : StepRes :=
  if upperStr (peek p) ≠ "WHERE".data then .ret p (some errWhere)
  else .cont { popP p with step := .stepWhereField }

/-- The `stepWhereField` case of the `switch` in Go `parser.doParse`. -/
def runStepWhereField (p : Parser) : StepRes :=
  let identifier := peek p
  if ¬ isIdentifier identifier then .ret p (some errWhereField)
  else
    let conds := p.query.Conditions ++ [{ Operand1 := identifier, Operand1IsField := true }]
    .cont { popP { p with query := { p.query with Conditions := conds } } with step := .stepWhereOperator }

/-- The `stepWhereOperator` case of the `switch` in Go `parser.doParse`. -/
def runStepWhereOperator (p : Parser) : StepRes :=
  match p.query.Conditions.getLast? with
  | none => .panicked
  | some cur =>
    match opFromTok (peek p) with
    | none => .ret p (some errWhereUnknownOp)
    | some op =>
      let conds := p.query.Conditions.dropLast ++ [{ cur with Operator := op }]
      .cont { popP { p with query := { p.query with Conditions := conds } } with step := .stepWhereValue }

/-- The `stepWhereValue` case of the `switch` in Go `parser.doParse`. -/
def runStepWhereValue (p : Parser) : StepRes :=
  let (qv0, l0) := peekQuoted p.sql p.i
  let (qv, l) := if l0 = 0 then peekWithLength p.sql p.i else (qv0, l0)
  if l = 0 then .ret p (some errWhereValue)
  else match p.query.Conditions.getLast? with
    | none => .panicked
    | some cur =>
      let conds := p.query.Conditions.dropLast ++
        [{ cur with Operand2 := qv, Operand2IsField := false }]
      let p1 := popP { p with query := { p.query with Conditions := conds } }
      if upperStr (peek p1) = "ORDER BY".data then .cont { popP p1 with step := .stepOrderField }
      else .cont { p1 with step := .stepWhereAnd }

/-- The `stepWhereAnd` case of the `switch` in Go `parser.doParse`. -/
def runStepWhereAnd (p : Parser) : StepRes :=
  if upperStr (peek p) ≠ "AND".data then .ret p (some errAnd)
  else .cont { popP p with step := .stepWhereField }

/-- The `stepOrder` case of the `switch` in Go `parser.doParse`. -/
def runStepOrder (p : Parser) : StepRes :=
  if upperStr (peek p) ≠ "ORDER BY".data then .ret p (some errOrder)
  else .cont { popP p with step := .stepOrderField }

/-- The `stepOrderField` case of the `switch` in Go `parser.doParse`. -/
def runStepOrderField (p : Parser) : StepRes :=
  let identifier := peek p
  if ¬ isIdentifier identifier then .ret p (some errOrderField)
  else
    let q1 := { p.query with OrderFields := p.query.OrderFields ++ [identifier],
                             OrderDir := p.query.OrderDir ++ ["ASC".data] }
    .cont { popP { p with query := q1 } with step := .stepOrderDirectionOrComma }

/-- The `stepOrderDirectionOrComma` case of the `switch` in Go `parser.doParse`. -/
def runStepOrderDirectionOrComma (p : Parser) : StepRes :=
  let commaRWord := peek p
  if commaRWord = ",".data then .cont { popP p with step := .stepOrderField }
  else if commaRWord = "ASC".data ∨ commaRWord = "DESC".data then
    match p.query.OrderDir.getLast? with
    | none => .panicked
    | some _ =>
      let q1 := { p.query with OrderDir := p.query.OrderDir.dropLast ++ [commaRWord] }
      .cont (popP { p with query := q1 })
  else .cont { p with step := .stepOrderField }

/-- The `stepJoin` case of the `switch` in Go `parser.doParse`. -/
def runStepJoin (p : Parser) : StepRes :=
  let joinType := peek p
  let q1 := { p.query with Joins := p.query.Joins ++ [{ Typ := joinType, Table := "UNKNOWN".data }] }
  .cont { popP { p with query := q1 } with step := .stepJoinTable }

/-- The `stepJoinTable` case of the `switch` in Go `parser.doParse`. -/
def runStepJoinTable (p : Parser) : StepRes :=
  let joinTable := peek p
  match p.query.Joins.getLast? with
  | none => .panicked
  | some cur =>
    let joins := p.query.Joins.dropLast ++ [{ cur with Table := joinTable }]
    let p1 := popP { p with query := { p.query with Joins := joins } }
    if upperStr (peek p1) = "ON".data then .cont { p1 with step := .stepJoinCondition }
    else .cont { p1 with step := .stepOrder }

/-- The `stepJoinCondition` case of the `switch` in Go `parser.doParse`. -/
def runStepJoinCondition (p : Parser) : StepRes :=
  let p1 := popP p
  let (op1, p2) := popTok p1
  let op1split := splitDot op1
  if op1split.length ≠ 2 then .ret p2 (some errOnForm)
  else match opFromTok (peek p2) with
    | none => .ret p2 (some errOnUnknownOp)
    | some op =>
      let p3 := popP p2
      let (op2, p4) := popTok p3
      let op2split := splitDot op2
      if op2split.length ≠ 2 then .ret p4 (some errOnForm)
      else
        let cond : JoinCondition :=
          { Table1 := op1split.headD [], Operand1 := op1split.getD 1 [],
            Operator := op,
            Table2 := op2split.headD [], Operand2 := op2split.getD 1 [] }
        match p4.query.Joins.getLast? with
        | none => .panicked
        | some cur =>
          let joins := p4.query.Joins.dropLast ++
            [{ cur with Conditions := cur.Conditions ++ [cond] }]
          let p5 := { p4 with query := { p4.query with Joins := joins } }
          let nextOp := peek p5
          if upperStr nextOp = "WHERE".data then .cont { p5 with step := .stepWhere }
          else if upperStr nextOp = "ORDER BY".data then .cont { p5 with step := .stepOrder }
          else if upperStr nextOp = "AND".data then .cont { p5 with step := .stepJoinCondition }
          else if strContains (upperStr nextOp) "JOIN".data then .cont { p5 with step := .stepJoin }
          else .cont p5

/-- The `stepInsertFieldsOpeningParens` case of the `switch` in Go `parser.doParse`. -/
def runStepInsertFieldsOpeningParens (p : Parser) : StepRes :=
  let openingParens := peek p
  if openingParens.length ≠ 1 ∨ openingParens ≠ "(".data then .ret p (some errInsertOpeningParens)
  else .cont { popP p with step := .stepInsertFields }

/-- The `stepInsertFields` case of the `switch` in Go `parser.doParse`. -/
def runStepInsertFields (p : Parser) : StepRes :=
  let identifier := peek p
  if !(isIdentifier identifier) && isReservedWord identifier then .ret p (some errInsertFieldsAtLeastOne)
  else
    let q1 := { p.query with Fields := p.query.Fields ++ [identifier] }
    .cont { popP { p with query := q1 } with step := .stepInsertFieldsCommaOrClosingParens }

/-- The `stepInsertFieldsCommaOrClosingParens` case of the `switch` in Go `parser.doParse`. -/
def runStepInsertFieldsCommaOrClosingParens (p : Parser) : StepRes :=
  let tok := peek p
  if tok ≠ ",".data ∧ tok ≠ ")".data then .ret p (some errInsertCommaOrClosing)
  else
    let p1 := popP p
    if tok = ",".data then .cont { p1 with step := .stepInsertFields }
    else .cont { p1 with step := .stepInsertValuesRWord }

/-- The `stepInsertValuesRWord` case of the `switch` in Go `parser.doParse`. -/
def runStepInsertValuesRWord (p : Parser) : StepRes :=
  if upperStr (peek p) ≠ "VALUES".data then .ret p (some errInsertValuesRWord)
  else .cont { popP p with step := .stepInsertValuesOpeningParens }

/-- The `stepInsertValuesOpeningParens` case of the `switch` in Go `parser.doParse`. -/
def runStepInsertValuesOpeningParens (p : Parser) : StepRes :=
  if peek p ≠ "(".data then .ret p (some errInsertOpeningParens)
  else
    let q1 := { p.query with Inserts := p.query.Inserts ++ [[]] }
    .cont { popP { p with query := q1 } with step := .stepInsertValues }

/-- The `stepInsertValues` case of the `switch` in Go `parser.doParse`. -/
def runStepInsertValues (p : Parser) : StepRes :=
  let (qv0, l0) := peekQuoted p.sql p.i
  let (qv, l) := if l0 = 0 then peekWithLength p.sql p.i else (qv0, l0)
  if l = 0 then .ret p (some errInsertValue)
  else match p.query.Inserts.getLast? with
    | none => .panicked
    | some row =>
      let q1 := { p.query with Inserts := p.query.Inserts.dropLast ++ [row ++ [qv]] }
      .cont { popP { p with query := q1 } with step := .stepInsertValuesCommaOrClosingParens }

/-- The `stepInsertValuesCommaOrClosingParens` case of the `switch` in Go `parser.doParse`. -/
def runStepInsertValuesCommaOrClosingParens (p : Parser) : StepRes :=
  let tok := peek p
  if tok ≠ ",".data ∧ tok ≠ ")".data then .ret p (some errInsertCommaOrClosing)
  else
    let p1 := popP p
    if tok = ",".data then .cont { p1 with step := .stepInsertValues }
    else match p1.query.Inserts.getLast? with
      | none => .panicked
      | some row =>
        if row.length < p1.query.Fields.length then .ret p1 (some errInsertShape)
        else .cont { p1 with step := .stepInsertValuesCommaBeforeOpeningParens }

/-- The `stepInsertValuesCommaBeforeOpeningParens` case of the `switch` in Go `parser.doParse`. -/
def runStepInsertValuesCommaBeforeOpeningParens (p : Parser) : StepRes :=
  let commaRWord := peek p
  if upperStr commaRWord ≠ ",".data ∧ isReservedWord commaRWord then .ret p (some errInsertExpectedComma)
  else
    let p1 := popP p
    if isReservedWord commaRWord = false then .ret p1 none
    else .cont { p1 with step := .stepInsertValuesOpeningParens }

/-- One iteration of the `switch p.step` body of Go `parser.doParse`,
dispatching on the current step. -/
def stepOnce (p : Parser) : StepRes :=
  match p.step with
  | .stepType => runStepType p
  | .stepTop => runStepTop p
  | .stepSelectField => runStepSelectField p
  | .stepSelectComma => runStepSelectComma p
  | .stepSelectFrom => runStepSelectFrom p
  | .stepSelectFromTable => runStepSelectFromTable p
  | .stepInsertTable => runStepInsertTable p
  | .stepDeleteFromTable => runStepDeleteFromTable p
  | .stepUpdateTable => runStepUpdateTable p
  | .stepUpdateSet => runStepUpdateSet p
  | .stepUpdateField => runStepUpdateField p
  | .stepUpdateEquals => runStepUpdateEquals p
  | .stepUpdateValue => runStepUpdateValue p
  | .stepUpdateComma => runStepUpdateComma p
  | .stepWhere => runStepWhere p
  | .stepWhereField => runStepWhereField p
  | .stepWhereOperator => runStepWhereOperator p
  | .stepWhereValue => runStepWhereValue p
  | .stepWhereAnd => runStepWhereAnd p
  | .stepOrder => runStepOrder p
  | .stepOrderField => runStepOrderField p
  | .stepOrderDirectionOrComma => runStepOrderDirectionOrComma p
  | .stepJoin => runStepJoin p
  | .stepJoinTable => runStepJoinTable p
  | .stepJoinCondition => runStepJoinCondition p
  | .stepInsertFieldsOpeningParens => runStepInsertFieldsOpeningParens p
  | .stepInsertFields => runStepInsertFields p
  | .stepInsertFieldsCommaOrClosingParens => runStepInsertFieldsCommaOrClosingParens p
  | .stepInsertValuesRWord => runStepInsertValuesRWord p
  | .stepInsertValuesOpeningParens => runStepInsertValuesOpeningParens p
  | .stepInsertValues => runStepInsertValues p
  | .stepInsertValuesCommaOrClosingParens => runStepInsertValuesCommaOrClosingParens p
  | .stepInsertValuesCommaBeforeOpeningParens => runStepInsertValuesCommaBeforeOpeningParens p

/-- Result of Go `parser.doParse` (the full loop): a normal return carrying the
final parser and optional error, a `log.Fatal`, a runtime panic, or fuel
exhaustion (which the Go loop, being terminating, never exhibits; all concrete
runs below stay well within the supplied fuel). -/
inductive DoRes
| ret (p : Parser) (e : Option Str)
| fatal (m : Str)
| panicked
| outOfFuel
deriving DecidableEq, Repr

/-- Go `parser.doParse`: iterate the loop body; at the top of each iteration an
exhausted input returns the query with the (always-nil) stored error. -/
def doParse : Nat → Parser → DoRes
| 0, _ => .outOfFuel
| fuel + 1, p =>
  if p.i ≥ p.sql.length then .ret p none
  else match stepOnce p with
    | .ret p' e => .ret p' e
    | .fatal m => .fatal m
    | .panicked => .panicked
    | .cont p' => doParse fuel p'

/-- The per-condition loop of Go `parser.validate`, returning its first error. -/
def condCheck : List Condition → Option Str
| [] => none
| c :: cs =>
  if c.Operator = .unknownOperator then some errCondNoOp
  else if c.Operand1 = [] ∧ c.Operand1IsField then some errCondEmptyLeft
  else if c.Operand2 = [] ∧ c.Operand2IsField then some errCondEmptyRight
  else condCheck cs

/-- The per-row loop of Go `parser.validate` for INSERT shape. -/
def insertRowCheck (fieldCount : Nat) : List (List Str) → Option Str
| [] => none
| r :: rs => if r.length ≠ fieldCount then some errInsertShape else insertRowCheck fieldCount rs

/-- Go `parser.validate`, with its checks in source order. -/
def validate (st : Step) (q : Query) : Option Str :=
  if q.Conditions = [] ∧ st = .stepWhereField then some errEmptyWhere
  else if q.Typ = .unknownType then some errTypeEmpty
  else if q.TableName = [] then some errTableEmpty
  else if q.Conditions = [] ∧ (q.Typ = .update ∨ q.Typ = .delete) then some errMandatoryWhere
  else match condCheck q.Conditions with
    | some e => some e
    | none =>
      if q.Typ = .insert ∧ q.Inserts = [] then some errNeedRow
      else if q.Typ = .insert then insertRowCheck q.Fields.length q.Inserts
      else none

/-- Result of a parse as seen by the caller. -/
inductive ParseResult
| ok (q : Query)
| err (q : Query) (e : Str)
| fatal (m : Str)
| panicked
| outOfFuel
deriving DecidableEq, Repr

/-- Fuel that the terminating Go loop never exceeds: every iteration either
consumes input or belongs to a short bounded chain of non-consuming steps. -/
def fuelFor (s : Str) : Nat := 8 * (s.length + 2)

/-- Go `parse` (the package-private function): trim the statement, run the state
machine from `stepType`, then validate when `doParse` reported no error. The
returned query is the final parser's query in every case, as in the Go source. -/
def parse (s : Str) : ParseResult :=
  let sql := trimStr s
  let p0 : Parser := { i := 0, sql := sql, step := .stepType, query := {}, nextUpdateField := [] }
  match doParse (fuelFor sql) p0 with
  | .ret p none =>
    match validate p.step p.query with
    | none => .ok p.query
    | some e => .err p.query e
  | .ret p (some e) => .err p.query e
  | .fatal m => .fatal m
  | .panicked => .panicked
  | .outOfFuel => .outOfFuel

/-- The normalization applied by Go `Parse` before it delegates to `ParseMany`,
and again by `ParseMany` per element: strip backticks, collapse whitespace. -/
def normalizeOnce (s : Str) : Str := collapseWs (stripBackticks s)

/-- Go `Parse`: normalize (twice, once in `Parse` and once in `ParseMany`), parse,
and on failure return the empty query with the error, as `Parse` does when
`ParseMany` produced no queries. -/
def Parse (s : Str) : ParseResult :=
  match parse (normalizeOnce (normalizeOnce s)) with
  | .err _ e => .err {} e
  | r => r

/-- A predicate on queries holding of the query carried by a non-crashing
step result. -/
def resInv (P : Query → Prop) : StepRes → Prop
| .ret p _ => P p.query
| .cont p => P p.query
| .fatal _ => True
| .panicked => True

/-- The shape every WHERE condition built by the state machine has: the left
operand is marked as a field, the right one is not. -/
def goodCond (c : Condition) : Prop :=
  c.Operand1IsField = true ∧ c.Operand2IsField = false

/-- The state invariant maintained by every step: ORDER BY fields and directions
stay parallel, and every condition has the `goodCond` flag shape. -/
def stateInv (q : Query) : Prop :=
  q.OrderFields.length = q.OrderDir.length ∧ ∀ c ∈ q.Conditions, goodCond c

/-- Results that are not a `log.Fatal` outcome. -/
def noFatal : StepRes → Prop
| .fatal _ => False
| _ => True

/-- The WHERE condition parsed from `this = that` (scenarios A--C). -/
def condThisEqThat : Condition :=
  { Operand1 := "this".data, Operand1IsField := true, Operator := .eq,
    Operand2 := "that".data, Operand2IsField := false }

/-- Expected AST of scenario A. -/
def qScenarioA : Query :=
  { Typ := .select, TableName := "there".data,
    Fields := ["start".data, "middle".data, "end".data],
    Conditions := [condThisEqThat] }

/-- Expected AST of SELECT a FROM t ORDER BY a. -/
def qOrderBy : Query :=
  { Typ := .select, TableName := "t".data, Fields := ["a".data],
    OrderFields := ["a".data], OrderDir := ["ASC".data] }

/-- AST built by the parser for INSERT INTO a. (x) VALUES (1,2): the table
reference a. splits into database a and an empty table name, and the single
row has two values against one declared field. -/
def qC3Counterexample : Query :=
  { Typ := .insert, TableName := [], Database := "a".data,
    Inserts := [["1".data, "2".data]], Fields := ["x".data] }

/-- An INSERT AST whose single row is longer than its field list. -/
def qC3Witness : Query :=
  { Typ := .insert, TableName := "t".data, Fields := ["a".data],
    Inserts := [["1".data, "2".data]] }

/-- AST built by the parser for DELETE FROM there WHERE (input exhausted at the
WHERE field): a DELETE with no conditions. -/
def qC4Counterexample : Query := { Typ := .delete, TableName := "there".data }

/-- AST produced for the INSERT with a trailing ON DUPLICATE KEY UPDATE clause. -/
def qC2 : Query :=
  { Typ := .insert, TableName := "t".data, Fields := ["a".data, "b".data],
    Inserts := [["1".data, "2".data]] }

/-- AST produced for SELECT * FROM a.b.c: database a, table b (the trailing .c
is discarded by the split). -/
def qC8Counterexample : Query :=
  { Typ := .select, TableName := "b".data, Database := "a".data, Fields := ["*".data] }

/-- A parser state sitting between value rows with a trailing unsupported
construct next. -/
def pC2Witness : Parser :=
  { i := 0, sql := "ON DUPLICATE KEY UPDATE a = 1".data,
    step := .stepInsertValuesCommaBeforeOpeningParens, query := qC2,
    nextUpdateField := [] }

/-- A parser state at the TOP count with a non-integer token next. -/
def pC5Witness : Parser :=
  { i := 0, sql := "TOP x a FROM t".data, step := .stepTop, query := {},
    nextUpdateField := [] }

/-- A parser state at a WHERE value whose input is an unterminated quote. -/
def pC6Witness : Parser :=
  { i := 0, sql := "'abc".data, step := .stepWhereValue,
    query := { Typ := .select, TableName := "t".data,
               Conditions := [{ Operand1 := "b".data, Operand1IsField := true,
                                Operator := .eq }] },
    nextUpdateField := [] }

/-- A parser state at an UPDATE table reference containing a dot. -/
def pC8Witness : Parser :=
  { i := 0, sql := "a.b SET x = 1".data, step := .stepUpdateTable, query := {},
    nextUpdateField := [] }

end SqlParser

namespace SqlParser

theorem ne_nil_of_getLast? {α : Type} {l : List α} {a : α} (h : l.getLast? = some a) :
    l ≠ [] := by
  cases l
  · simp at h
  · simp

theorem mem_of_getLast? {α : Type} {l : List α} {a : α} (h : l.getLast? = some a) :
    a ∈ l := by
  cases l with
  | nil => simp at h
  | cons b t =>
    rw [List.getLast?_eq_getLast _ (by simp)] at h
    rw [← Option.some_inj.mp h]
    exact List.getLast_mem _

theorem length_dropLast_append_one {α : Type} (l : List α) (a : α) (h : l ≠ []) :
    (l.dropLast ++ [a]).length = l.length := by
  have := List.length_pos.mpr h
  simp only [List.length_append, List.length_dropLast, List.length_singleton]
  omega

theorem mem_dropLast_append_one {α : Type} {l : List α} {a x : α}
    (h : x ∈ l.dropLast ++ [a]) : x ∈ l ∨ x = a := by
  rcases List.mem_append.1 h with h1 | h2
  · exact Or.inl ((l.dropLast_sublist).mem h1)
  · simp at h2
    exact Or.inr h2

theorem query_popP (p : Parser) : (popP p).query = p.query := rfl

theorem inv_runStepType (p : Parser) (h : stateInv p.query) : resInv stateInv (runStepType p) := by
  simp only [runStepType]
  repeat' split
  all_goals exact h

theorem inv_runStepTop (p : Parser) (h : stateInv p.query) : resInv stateInv (runStepTop p) := by
  simp only [runStepTop]
  repeat' split
  all_goals first | exact h | trivial

theorem inv_runStepSelectField (p : Parser) (h : stateInv p.query) :
    resInv stateInv (runStepSelectField p) := by
  simp only [runStepSelectField]
  repeat' split
  all_goals exact h

theorem inv_runStepSelectComma (p : Parser) (h : stateInv p.query) :
    resInv stateInv (runStepSelectComma p) := by
  simp only [runStepSelectComma]
  repeat' split
  all_goals exact h

theorem inv_runStepSelectFrom (p : Parser) (h : stateInv p.query) :
    resInv stateInv (runStepSelectFrom p) := by
  simp only [runStepSelectFrom]
  repeat' split
  all_goals exact h

theorem inv_runStepSelectFromTable (p : Parser) (h : stateInv p.query) :
    resInv stateInv (runStepSelectFromTable p) := by
  simp only [runStepSelectFromTable]
  repeat' split
  all_goals exact h

theorem inv_runStepInsertTable (p : Parser) (h : stateInv p.query) :
    resInv stateInv (runStepInsertTable p) := by
  simp only [runStepInsertTable]
  repeat' split
  all_goals exact h

theorem inv_runStepDeleteFromTable (p : Parser) (h : stateInv p.query) :
    resInv stateInv (runStepDeleteFromTable p) := by
  simp only [runStepDeleteFromTable]
  repeat' split
  all_goals exact h

theorem inv_runStepUpdateTable (p : Parser) (h : stateInv p.query) :
    resInv stateInv (runStepUpdateTable p) := by
  simp only [runStepUpdateTable]
  repeat' split
  all_goals exact h

theorem inv_runStepUpdateSet (p : Parser) (h : stateInv p.query) :
    resInv stateInv (runStepUpdateSet p) := by
  simp only [runStepUpdateSet]
  repeat' split
  all_goals exact h

theorem inv_runStepUpdateField (p : Parser) (h : stateInv p.query) :
    resInv stateInv (runStepUpdateField p) := by
  simp only [runStepUpdateField]
  repeat' split
  all_goals exact h

theorem inv_runStepUpdateEquals (p : Parser) (h : stateInv p.query) :
    resInv stateInv (runStepUpdateEquals p) := by
  simp only [runStepUpdateEquals]
  repeat' split
  all_goals exact h

theorem inv_runStepUpdateValue (p : Parser) (h : stateInv p.query) :
    resInv stateInv (runStepUpdateValue p) := by
  simp only [runStepUpdateValue]
  repeat' split
  all_goals exact h

theorem inv_runStepUpdateComma (p : Parser) (h : stateInv p.query) :
    resInv stateInv (runStepUpdateComma p) := by
  simp only [runStepUpdateComma]
  repeat' split
  all_goals exact h

theorem inv_runStepWhere (p : Parser) (h : stateInv p.query) :
    resInv stateInv (runStepWhere p) := by
  simp only [runStepWhere]
  repeat' split
  all_goals exact h

theorem inv_runStepWhereField (p : Parser) (h : stateInv p.query) :
    resInv stateInv (runStepWhereField p) := by
  obtain ⟨h1, h2⟩ := h
  simp only [runStepWhereField]
  split
  · exact ⟨h1, h2⟩
  · refine ⟨h1, ?_⟩
    intro c hc
    rcases List.mem_append.1 hc with hm | hm
    · exact h2 c hm
    · rw [List.mem_singleton.1 hm]
      exact ⟨rfl, rfl⟩

theorem inv_runStepWhereOperator (p : Parser) (h : stateInv p.query) :
    resInv stateInv (runStepWhereOperator p) := by
  obtain ⟨h1, h2⟩ := h
  simp only [runStepWhereOperator]
  cases heq : p.query.Conditions.getLast? with
  | none => trivial
  | some cur =>
    cases opFromTok (peek p) with
    | none => exact ⟨h1, h2⟩
    | some op =>
      refine ⟨h1, ?_⟩
      intro c hc
      rcases mem_dropLast_append_one hc with hm | rfl
      · exact h2 c hm
      · have hg := h2 cur (mem_of_getLast? heq)
        exact ⟨hg.1, hg.2⟩

theorem conds_setLast_good {conds : List Condition} (h2 : ∀ c ∈ conds, goodCond c)
    {cur : Condition} (heq : conds.getLast? = some cur) (v : Str) :
    ∀ c ∈ conds.dropLast ++
      [{ Operand1 := cur.Operand1, Operand1IsField := cur.Operand1IsField,
         Operator := cur.Operator, Operand2 := v, Operand2IsField := false }], goodCond c := by
  intro c hc
  rcases mem_dropLast_append_one hc with hm | rfl
  · exact h2 c hm
  · have hg := h2 cur (mem_of_getLast? heq)
    exact ⟨hg.1, rfl⟩

theorem inv_runStepWhereValue (p : Parser) (h : stateInv p.query) :
    resInv stateInv (runStepWhereValue p) := by
  obtain ⟨h1, h2⟩ := h
  simp only [runStepWhereValue]
  repeat' split
  all_goals first
    | exact ⟨h1, h2⟩
    | exact ⟨h1, conds_setLast_good h2 (by assumption) _⟩
    | trivial

theorem inv_runStepWhereAnd (p : Parser) (h : stateInv p.query) :
    resInv stateInv (runStepWhereAnd p) := by
  simp only [runStepWhereAnd]
  repeat' split
  all_goals exact h

theorem inv_runStepOrder (p : Parser) (h : stateInv p.query) :
    resInv stateInv (runStepOrder p) := by
  simp only [runStepOrder]
  repeat' split
  all_goals exact h

theorem inv_runStepOrderField (p : Parser) (h : stateInv p.query) :
    resInv stateInv (runStepOrderField p) := by
  obtain ⟨h1, h2⟩ := h
  simp only [runStepOrderField]
  split
  · exact ⟨h1, h2⟩
  · refine ⟨?_, h2⟩
    show (p.query.OrderFields ++ _).length = (p.query.OrderDir ++ _).length
    simp [h1]

theorem inv_runStepOrderDirectionOrComma (p : Parser) (h : stateInv p.query) :
    resInv stateInv (runStepOrderDirectionOrComma p) := by
  obtain ⟨h1, h2⟩ := h
  simp only [runStepOrderDirectionOrComma]
  split
  · exact ⟨h1, h2⟩
  · split
    · cases heq : p.query.OrderDir.getLast? with
      | none => trivial
      | some d =>
        refine ⟨?_, h2⟩
        show p.query.OrderFields.length = (p.query.OrderDir.dropLast ++ _).length
        rw [length_dropLast_append_one _ _ (ne_nil_of_getLast? heq)]
        exact h1
    · exact ⟨h1, h2⟩

theorem inv_runStepJoin (p : Parser) (h : stateInv p.query) :
    resInv stateInv (runStepJoin p) := by
  simp only [runStepJoin]
  exact h

theorem inv_runStepJoinTable (p : Parser) (h : stateInv p.query) :
    resInv stateInv (runStepJoinTable p) := by
  simp only [runStepJoinTable]
  repeat' split
  all_goals first | exact h | trivial

set_option maxHeartbeats 1000000 in
theorem inv_runStepJoinCondition (p : Parser) (h : stateInv p.query) :
    resInv stateInv (runStepJoinCondition p) := by
  simp only [runStepJoinCondition]
  repeat' split
  all_goals first | exact h | trivial

theorem inv_runStepInsertFieldsOpeningParens (p : Parser) (h : stateInv p.query) :
    resInv stateInv (runStepInsertFieldsOpeningParens p) := by
  simp only [runStepInsertFieldsOpeningParens]
  repeat' split
  all_goals exact h

theorem inv_runStepInsertFields (p : Parser) (h : stateInv p.query) :
    resInv stateInv (runStepInsertFields p) := by
  simp only [runStepInsertFields]
  repeat' split
  all_goals exact h

theorem inv_runStepInsertFieldsCommaOrClosingParens (p : Parser) (h : stateInv p.query) :
    resInv stateInv (runStepInsertFieldsCommaOrClosingParens p) := by
  simp only [runStepInsertFieldsCommaOrClosingParens]
  repeat' split
  all_goals exact h

theorem inv_runStepInsertValuesRWord (p : Parser) (h : stateInv p.query) :
    resInv stateInv (runStepInsertValuesRWord p) := by
  simp only [runStepInsertValuesRWord]
  repeat' split
  all_goals exact h

theorem inv_runStepInsertValuesOpeningParens (p : Parser) (h : stateInv p.query) :
    resInv stateInv (runStepInsertValuesOpeningParens p) := by
  simp only [runStepInsertValuesOpeningParens]
  repeat' split
  all_goals exact h

theorem inv_runStepInsertValues (p : Parser) (h : stateInv p.query) :
    resInv stateInv (runStepInsertValues p) := by
  simp only [runStepInsertValues]
  repeat' split
  all_goals first | exact h | trivial

theorem inv_runStepInsertValuesCommaOrClosingParens (p : Parser) (h : stateInv p.query) :
    resInv stateInv (runStepInsertValuesCommaOrClosingParens p) := by
  simp only [runStepInsertValuesCommaOrClosingParens]
  repeat' split
  all_goals first | exact h | trivial

theorem inv_runStepInsertValuesCommaBeforeOpeningParens (p : Parser) (h : stateInv p.query) :
    resInv stateInv (runStepInsertValuesCommaBeforeOpeningParens p) := by
  simp only [runStepInsertValuesCommaBeforeOpeningParens]
  repeat' split
  all_goals exact h

theorem stepOnce_stateInv (p : Parser) (h : stateInv p.query) :
    resInv stateInv (stepOnce p) := by
  cases hstep : p.step <;> simp only [stepOnce, hstep]
  case stepType => exact inv_runStepType p h
  case stepTop => exact inv_runStepTop p h
  case stepSelectField => exact inv_runStepSelectField p h
  case stepSelectComma => exact inv_runStepSelectComma p h
  case stepSelectFrom => exact inv_runStepSelectFrom p h
  case stepSelectFromTable => exact inv_runStepSelectFromTable p h
  case stepInsertTable => exact inv_runStepInsertTable p h
  case stepDeleteFromTable => exact inv_runStepDeleteFromTable p h
  case stepUpdateTable => exact inv_runStepUpdateTable p h
  case stepUpdateSet => exact inv_runStepUpdateSet p h
  case stepUpdateField => exact inv_runStepUpdateField p h
  case stepUpdateEquals => exact inv_runStepUpdateEquals p h
  case stepUpdateValue => exact inv_runStepUpdateValue p h
  case stepUpdateComma => exact inv_runStepUpdateComma p h
  case stepWhere => exact inv_runStepWhere p h
  case stepWhereField => exact inv_runStepWhereField p h
  case stepWhereOperator => exact inv_runStepWhereOperator p h
  case stepWhereValue => exact inv_runStepWhereValue p h
  case stepWhereAnd => exact inv_runStepWhereAnd p h
  case stepOrder => exact inv_runStepOrder p h
  case stepOrderField => exact inv_runStepOrderField p h
  case stepOrderDirectionOrComma => exact inv_runStepOrderDirectionOrComma p h
  case stepJoin => exact inv_runStepJoin p h
  case stepJoinTable => exact inv_runStepJoinTable p h
  case stepJoinCondition => exact inv_runStepJoinCondition p h
  case stepInsertFieldsOpeningParens => exact inv_runStepInsertFieldsOpeningParens p h
  case stepInsertFields => exact inv_runStepInsertFields p h
  case stepInsertFieldsCommaOrClosingParens => exact inv_runStepInsertFieldsCommaOrClosingParens p h
  case stepInsertValuesRWord => exact inv_runStepInsertValuesRWord p h
  case stepInsertValuesOpeningParens => exact inv_runStepInsertValuesOpeningParens p h
  case stepInsertValues => exact inv_runStepInsertValues p h
  case stepInsertValuesCommaOrClosingParens => exact inv_runStepInsertValuesCommaOrClosingParens p h
  case stepInsertValuesCommaBeforeOpeningParens =>
    exact inv_runStepInsertValuesCommaBeforeOpeningParens p h

theorem doParse_stateInv :
    ∀ (fuel : Nat) (p p' : Parser) (e : Option Str), stateInv p.query →
      doParse fuel p = .ret p' e → stateInv p'.query := by
  intro fuel
  induction fuel with
  | zero => intro p p' e _ h; simp [doParse] at h
  | succ n ih =>
    intro p p' e hInv h
    rw [doParse] at h
    split at h
    · cases h
      exact hInv
    · have hs := stepOnce_stateInv p hInv
      cases hres : stepOnce p with
      | ret pr er =>
        rw [hres] at h hs
        cases h
        exact hs
      | fatal m => rw [hres] at h; cases h
      | panicked => rw [hres] at h; cases h
      | cont pc =>
        rw [hres] at h hs
        exact ih pc p' e hs h

theorem parse_ok_stateInv (s : Str) (q : Query) (h : parse s = .ok q) : stateInv q := by
  rw [parse] at h
  split at h
  · next p hd =>
    split at h
    · cases h
      exact doParse_stateInv _ _ _ _ (by exact ⟨rfl, by simp⟩) hd
    · cases h
  · cases h
  · cases h
  · cases h
  · cases h

theorem Parse_ok_parse (s : Str) (q : Query)
    (h : Parse s = .ok q) : parse (normalizeOnce (normalizeOnce s)) = .ok q := by
  rw [Parse] at h
  split at h
  · cases h
  · next r hne =>
    cases hr : parse (normalizeOnce (normalizeOnce s)) <;> rw [hr] at h <;>
      first | (cases h; rfl) | cases h


theorem validate_none_mutation {st : Step} {q : Query} (h : validate st q = none)
    (hc : q.Conditions = []) : ¬(q.Typ = .update ∨ q.Typ = .delete) := by
  intro hor
  rw [validate] at h
  split at h
  · cases h
  · split at h
    · cases h
    · split at h
      · cases h
      · split at h
        · cases h
        · next h4 => exact h4 ⟨hc, hor⟩

theorem insertRowCheck_none {n : Nat} {rs : List (List Str)}
    (h : insertRowCheck n rs = none) : ∀ r ∈ rs, r.length = n := by
  induction rs with
  | nil => simp
  | cons r t ih =>
    rw [insertRowCheck] at h
    split at h
    · cases h
    · next hne =>
      intro x hx
      rcases List.mem_cons.1 hx with rfl | hxt
      · simpa using hne
      · exact ih h x hxt

theorem validate_none_insertShape {st : Step} {q : Query} (h : validate st q = none)
    (hq : q.Typ = .insert) : ∀ r ∈ q.Inserts, r.length = q.Fields.length := by
  rw [validate] at h
  split at h
  · cases h
  · split at h
    · cases h
    · split at h
      · cases h
      · split at h
        · cases h
        · split at h
          · cases h
          · split at h
            · cases h
            · exact insertRowCheck_none h

theorem insertRowCheck_some {n : Nat} {rs : List (List Str)}
    (h : ∃ r ∈ rs, r.length ≠ n) : insertRowCheck n rs = some errInsertShape := by
  induction rs with
  | nil => simp at h
  | cons r t ih =>
    rw [insertRowCheck]
    split
    · rfl
    · next hne =>
      apply ih
      rcases h with ⟨x, hx, hlen⟩
      rcases List.mem_cons.1 hx with rfl | hxt
      · exact absurd hlen (by simpa using hne)
      · exact ⟨x, hxt, hlen⟩

theorem validate_insert_shape {st : Step} {q : Query} (hq : q.Typ = .insert)
    (hst : st ≠ .stepWhereField) (ht : q.TableName ≠ []) (hcond : q.Conditions = [])
    (hmis : ∃ r ∈ q.Inserts, r.length ≠ q.Fields.length) :
    validate st q = some errInsertShape := by
  rw [validate]
  rw [if_neg (by rintro ⟨_, h⟩; exact hst h)]
  rw [if_neg (by rw [hq]; rintro h; cases h)]
  rw [if_neg ht]
  rw [if_neg (by rintro ⟨_, hor⟩; rcases hor with h | h <;> rw [hq] at h <;> cases h)]
  rw [hcond]
  have hne : ¬(q.Typ = .insert ∧ q.Inserts = []) := by
    rintro ⟨_, hnil⟩
    rcases hmis with ⟨r, hr, _⟩
    rw [hnil] at hr
    simp at hr
  simp only [condCheck]
  rw [if_neg hne, if_pos hq]
  exact insertRowCheck_some hmis

theorem validate_mandatory_where {st : Step} {q : Query}
    (hor : q.Typ = .update ∨ q.Typ = .delete) (hcond : q.Conditions = [])
    (hst : st ≠ .stepWhereField) (ht : q.TableName ≠ []) :
    validate st q = some errMandatoryWhere := by
  rw [validate]
  rw [if_neg (by rintro ⟨_, h⟩; exact hst h)]
  rw [if_neg (by rcases hor with h | h <;> rw [h] <;> rintro hk <;> cases hk)]
  rw [if_neg ht]
  rw [if_pos ⟨hcond, hor⟩]

theorem parse_ok_validate (s : Str) (q : Query) (h : parse s = .ok q) :
    ∃ st, validate st q = none := by
  rw [parse] at h
  split at h
  · next p hd =>
    split at h
    · next hv =>
      cases h
      exact ⟨p.step, hv⟩
    · cases h
  · cases h
  · cases h
  · cases h
  · cases h


theorem noFatal_runStepType (p : Parser) : noFatal (runStepType p) := by
  simp only [runStepType]
  repeat' split
  all_goals trivial

theorem noFatal_runStepSelectField (p : Parser) : noFatal (runStepSelectField p) := by
  simp only [runStepSelectField]
  repeat' split
  all_goals trivial

theorem noFatal_runStepSelectComma (p : Parser) : noFatal (runStepSelectComma p) := by
  simp only [runStepSelectComma]
  repeat' split
  all_goals trivial

theorem noFatal_runStepSelectFrom (p : Parser) : noFatal (runStepSelectFrom p) := by
  simp only [runStepSelectFrom]
  repeat' split
  all_goals trivial

theorem noFatal_runStepSelectFromTable (p : Parser) : noFatal (runStepSelectFromTable p) := by
  simp only [runStepSelectFromTable]
  repeat' split
  all_goals trivial

theorem noFatal_runStepInsertTable (p : Parser) : noFatal (runStepInsertTable p) := by
  simp only [runStepInsertTable]
  repeat' split
  all_goals trivial

theorem noFatal_runStepDeleteFromTable (p : Parser) : noFatal (runStepDeleteFromTable p) := by
  simp only [runStepDeleteFromTable]
  repeat' split
  all_goals trivial

theorem noFatal_runStepUpdateTable (p : Parser) : noFatal (runStepUpdateTable p) := by
  simp only [runStepUpdateTable]
  repeat' split
  all_goals trivial

theorem noFatal_runStepUpdateSet (p : Parser) : noFatal (runStepUpdateSet p) := by
  simp only [runStepUpdateSet]
  repeat' split
  all_goals trivial

theorem noFatal_runStepUpdateField (p : Parser) : noFatal (runStepUpdateField p) := by
  simp only [runStepUpdateField]
  repeat' split
  all_goals trivial

theorem noFatal_runStepUpdateEquals (p : Parser) : noFatal (runStepUpdateEquals p) := by
  simp only [runStepUpdateEquals]
  repeat' split
  all_goals trivial

theorem noFatal_runStepUpdateValue (p : Parser) : noFatal (runStepUpdateValue p) := by
  simp only [runStepUpdateValue]
  repeat' split
  all_goals trivial

theorem noFatal_runStepUpdateComma (p : Parser) : noFatal (runStepUpdateComma p) := by
  simp only [runStepUpdateComma]
  repeat' split
  all_goals trivial

theorem noFatal_runStepWhere (p : Parser) : noFatal (runStepWhere p) := by
  simp only [runStepWhere]
  repeat' split
  all_goals trivial

theorem noFatal_runStepWhereField (p : Parser) : noFatal (runStepWhereField p) := by
  simp only [runStepWhereField]
  repeat' split
  all_goals trivial

theorem noFatal_runStepWhereOperator (p : Parser) : noFatal (runStepWhereOperator p) := by
  simp only [runStepWhereOperator]
  repeat' split
  all_goals trivial

theorem noFatal_runStepWhereValue (p : Parser) : noFatal (runStepWhereValue p) := by
  simp only [runStepWhereValue]
  repeat' split
  all_goals trivial

theorem noFatal_runStepWhereAnd (p : Parser) : noFatal (runStepWhereAnd p) := by
  simp only [runStepWhereAnd]
  repeat' split
  all_goals trivial

theorem noFatal_runStepOrder (p : Parser) : noFatal (runStepOrder p) := by
  simp only [runStepOrder]
  repeat' split
  all_goals trivial

theorem noFatal_runStepOrderField (p : Parser) : noFatal (runStepOrderField p) := by
  simp only [runStepOrderField]
  repeat' split
  all_goals trivial

theorem noFatal_runStepOrderDirectionOrComma (p : Parser) : noFatal (runStepOrderDirectionOrComma p) := by
  simp only [runStepOrderDirectionOrComma]
  repeat' split
  all_goals trivial

theorem noFatal_runStepJoin (p : Parser) : noFatal (runStepJoin p) := by
  simp only [runStepJoin]
  trivial

theorem noFatal_runStepJoinTable (p : Parser) : noFatal (runStepJoinTable p) := by
  simp only [runStepJoinTable]
  repeat' split
  all_goals trivial

theorem noFatal_runStepJoinCondition (p : Parser) : noFatal (runStepJoinCondition p) := by
  simp only [runStepJoinCondition]
  repeat' split
  all_goals trivial

theorem noFatal_runStepInsertFieldsOpeningParens (p : Parser) : noFatal (runStepInsertFieldsOpeningParens p) := by
  simp only [runStepInsertFieldsOpeningParens]
  repeat' split
  all_goals trivial

theorem noFatal_runStepInsertFields (p : Parser) : noFatal (runStepInsertFields p) := by
  simp only [runStepInsertFields]
  repeat' split
  all_goals trivial

theorem noFatal_runStepInsertFieldsCommaOrClosingParens (p : Parser) : noFatal (runStepInsertFieldsCommaOrClosingParens p) := by
  simp only [runStepInsertFieldsCommaOrClosingParens]
  repeat' split
  all_goals trivial

theorem noFatal_runStepInsertValuesRWord (p : Parser) : noFatal (runStepInsertValuesRWord p) := by
  simp only [runStepInsertValuesRWord]
  repeat' split
  all_goals trivial

theorem noFatal_runStepInsertValuesOpeningParens (p : Parser) : noFatal (runStepInsertValuesOpeningParens p) := by
  simp only [runStepInsertValuesOpeningParens]
  repeat' split
  all_goals trivial

theorem noFatal_runStepInsertValues (p : Parser) : noFatal (runStepInsertValues p) := by
  simp only [runStepInsertValues]
  repeat' split
  all_goals trivial

theorem noFatal_runStepInsertValuesCommaOrClosingParens (p : Parser) : noFatal (runStepInsertValuesCommaOrClosingParens p) := by
  simp only [runStepInsertValuesCommaOrClosingParens]
  repeat' split
  all_goals trivial

theorem noFatal_runStepInsertValuesCommaBeforeOpeningParens (p : Parser) : noFatal (runStepInsertValuesCommaBeforeOpeningParens p) := by
  simp only [runStepInsertValuesCommaBeforeOpeningParens]
  repeat' split
  all_goals trivial

set_option maxHeartbeats 1000000 in
theorem stepOnce_fatal_only_top (p : Parser) (m : Str) (h : stepOnce p = .fatal m) :
    p.step = .stepTop ∧ m = fatalTopMsg := by
  cases hstep : p.step <;> simp only [stepOnce, hstep] at h
  case stepTop =>
    simp only [runStepTop] at h
    split at h
    · injection h with hm
      exact ⟨rfl, hm.symm⟩
    · cases h
  case stepType =>
    have hn := noFatal_runStepType p
    rw [h] at hn
    exact hn.elim
  case stepSelectField =>
    have hn := noFatal_runStepSelectField p
    rw [h] at hn
    exact hn.elim
  case stepSelectComma =>
    have hn := noFatal_runStepSelectComma p
    rw [h] at hn
    exact hn.elim
  case stepSelectFrom =>
    have hn := noFatal_runStepSelectFrom p
    rw [h] at hn
    exact hn.elim
  case stepSelectFromTable =>
    have hn := noFatal_runStepSelectFromTable p
    rw [h] at hn
    exact hn.elim
  case stepInsertTable =>
    have hn := noFatal_runStepInsertTable p
    rw [h] at hn
    exact hn.elim
  case stepDeleteFromTable =>
    have hn := noFatal_runStepDeleteFromTable p
    rw [h] at hn
    exact hn.elim
  case stepUpdateTable =>
    have hn := noFatal_runStepUpdateTable p
    rw [h] at hn
    exact hn.elim
  case stepUpdateSet =>
    have hn := noFatal_runStepUpdateSet p
    rw [h] at hn
    exact hn.elim
  case stepUpdateField =>
    have hn := noFatal_runStepUpdateField p
    rw [h] at hn
    exact hn.elim
  case stepUpdateEquals =>
    have hn := noFatal_runStepUpdateEquals p
    rw [h] at hn
    exact hn.elim
  case stepUpdateValue =>
    have hn := noFatal_runStepUpdateValue p
    rw [h] at hn
    exact hn.elim
  case stepUpdateComma =>
    have hn := noFatal_runStepUpdateComma p
    rw [h] at hn
    exact hn.elim
  case stepWhere =>
    have hn := noFatal_runStepWhere p
    rw [h] at hn
    exact hn.elim
  case stepWhereField =>
    have hn := noFatal_runStepWhereField p
    rw [h] at hn
    exact hn.elim
  case stepWhereOperator =>
    have hn := noFatal_runStepWhereOperator p
    rw [h] at hn
    exact hn.elim
  case stepWhereValue =>
    have hn := noFatal_runStepWhereValue p
    rw [h] at hn
    exact hn.elim
  case stepWhereAnd =>
    have hn := noFatal_runStepWhereAnd p
    rw [h] at hn
    exact hn.elim
  case stepOrder =>
    have hn := noFatal_runStepOrder p
    rw [h] at hn
    exact hn.elim
  case stepOrderField =>
    have hn := noFatal_runStepOrderField p
    rw [h] at hn
    exact hn.elim
  case stepOrderDirectionOrComma =>
    have hn := noFatal_runStepOrderDirectionOrComma p
    rw [h] at hn
    exact hn.elim
  case stepJoin =>
    have hn := noFatal_runStepJoin p
    rw [h] at hn
    exact hn.elim
  case stepJoinTable =>
    have hn := noFatal_runStepJoinTable p
    rw [h] at hn
    exact hn.elim
  case stepJoinCondition =>
    have hn := noFatal_runStepJoinCondition p
    rw [h] at hn
    exact hn.elim
  case stepInsertFieldsOpeningParens =>
    have hn := noFatal_runStepInsertFieldsOpeningParens p
    rw [h] at hn
    exact hn.elim
  case stepInsertFields =>
    have hn := noFatal_runStepInsertFields p
    rw [h] at hn
    exact hn.elim
  case stepInsertFieldsCommaOrClosingParens =>
    have hn := noFatal_runStepInsertFieldsCommaOrClosingParens p
    rw [h] at hn
    exact hn.elim
  case stepInsertValuesRWord =>
    have hn := noFatal_runStepInsertValuesRWord p
    rw [h] at hn
    exact hn.elim
  case stepInsertValuesOpeningParens =>
    have hn := noFatal_runStepInsertValuesOpeningParens p
    rw [h] at hn
    exact hn.elim
  case stepInsertValues =>
    have hn := noFatal_runStepInsertValues p
    rw [h] at hn
    exact hn.elim
  case stepInsertValuesCommaOrClosingParens =>
    have hn := noFatal_runStepInsertValuesCommaOrClosingParens p
    rw [h] at hn
    exact hn.elim
  case stepInsertValuesCommaBeforeOpeningParens =>
    have hn := noFatal_runStepInsertValuesCommaBeforeOpeningParens p
    rw [h] at hn
    exact hn.elim

theorem takeUntilQuote_none {l : Str} (h : ∀ c ∈ l, c ≠ '\'') :
    takeUntilQuote l = none := by
  induction l with
  | nil => rfl
  | cons c cs ih =>
    rw [takeUntilQuote, if_neg (h c (by simp))]
    rw [ih (fun x hx => h x (by simp [hx]))]
    rfl

theorem upperStr_take_quote_ne {tail rw : Str} (hne : rw ≠ [])
    (hh : rw.head? ≠ some '\'') : upperStr (('\'' :: tail).take rw.length) ≠ rw := by
  cases rw with
  | nil => exact absurd rfl hne
  | cons b bs =>
    intro hEq
    rw [List.length_cons, List.take_succ_cons, upperStr, List.map_cons] at hEq
    have hb : '\''.toUpper = b := by injection hEq
    apply hh
    rw [List.head?_cons, ← hb]
    rfl

theorem findReserved_at_quote {sql : Str} {i : Nat} {tail : Str}
    (hd : sql.drop i = '\'' :: tail) :
    ∀ ws : List Str, (∀ rw ∈ ws, rw ≠ [] ∧ rw.head? ≠ some '\'') →
      findReserved sql i ws = none := by
  intro ws
  induction ws with
  | nil => intro _; rfl
  | cons w rest ih =>
    intro hws
    rw [findReserved, hd]
    rw [if_neg (upperStr_take_quote_ne (hws w (by simp)).1 (hws w (by simp)).2)]
    exact ih (fun rw hrw => hws rw (by simp [hrw]))

theorem drop_cons_lt {sql : Str} {i : Nat} {c : Char} {tail : Str}
    (hd : sql.drop i = c :: tail) : i < sql.length := by
  by_contra hge
  rw [List.drop_eq_nil_of_le (by omega)] at hd
  cases hd

theorem peekQuoted_unterminated {sql : Str} {i : Nat} {tail : Str}
    (hd : sql.drop i = '\'' :: tail) (h : ∀ c ∈ tail, c ≠ '\'') :
    peekQuoted sql i = ([], 0) := by
  have hi := drop_cons_lt hd
  rw [peekQuoted, if_neg (by omega), hd]
  show (match takeUntilQuote tail with
      | some s => (s, s.length + 2)
      | none => (([] : Str), 0)) = ([], 0)
  rw [takeUntilQuote_none h]

theorem peekWithLength_unterminated {sql : Str} {i : Nat} {tail : Str}
    (hd : sql.drop i = '\'' :: tail) (h : ∀ c ∈ tail, c ≠ '\'') :
    peekWithLength sql i = ([], 0) := by
  have hi := drop_cons_lt hd
  rw [peekWithLength, if_neg (by omega), findReserved_at_quote hd reservedWords (by decide), hd]
  show peekQuoted sql i = ([], 0)
  exact peekQuoted_unterminated hd h

theorem runStepWhereValue_unterminated {p : Parser} {tail : Str}
    (hd : p.sql.drop p.i = '\'' :: tail) (h : ∀ c ∈ tail, c ≠ '\'') :
    runStepWhereValue p = .ret p (some errWhereValue) := by
  simp only [runStepWhereValue, peekQuoted_unterminated hd h,
    peekWithLength_unterminated hd h]
  simp



set_option maxHeartbeats 4000000

/-- C1: the spec (Scenario F) expects `INSERT INTO there (a, b) VALUES (1, 2),
(3, 4)` to parse with both value rows present. The code instead returns success
right after the comma that follows the first row: in
`stepInsertValuesCommaBeforeOpeningParens` the guard `isReservedWord(",")` is
false, so the early `return p.query, nil` fires and the second row is dropped.
`Parse` succeeds with fields `[a, b]` but inserts `[[1, 2]]`, not
`[[1, 2], [3, 4]]`. -/
theorem spec_c1_multirow_insert_drops_later_rows :
    Parse "INSERT INTO there (a, b) VALUES (1, 2), (3, 4)".data =
      .ok { Typ := .insert, TableName := "there".data,
            Fields := ["a".data, "b".data], Inserts := [["1".data, "2".data]] } ∧
    ([["1".data, "2".data]] : List (List Str)) ≠
      [["1".data, "2".data], ["3".data, "4".data]] := by
  constructor <;> decide

/-- C2: at the step between INSERT value rows, a trailing unsupported construct
(the reserved token ON DUPLICATE KEY UPDATE) makes `doParse` stop and return the
query built so far with a nil error, for every parser state; end to end, such a
statement parses as a success carrying the rows already read. -/
theorem spec_c2_on_duplicate_short_circuit :
    (∀ p : Parser, p.step = .stepInsertValuesCommaBeforeOpeningParens →
        peek p = "ON DUPLICATE KEY UPDATE".data →
        stepOnce p = .ret (popP p) none) ∧
    Parse "INSERT INTO t (a, b) VALUES (1, 2) ON DUPLICATE KEY UPDATE a = 1".data =
      .ok qC2 := by
  constructor
  · intro p h1 h2
    simp only [stepOnce, h1, runStepInsertValuesCommaBeforeOpeningParens, h2]
    rw [if_neg (by decide), if_pos (by decide)]
  · decide

/-- Witness for C2: the short-circuit fires at the concrete state `pC2Witness`. -/
theorem spec_c2_on_duplicate_short_circuit_witness :
    stepOnce pC2Witness = .ret (popP pC2Witness) none :=
  spec_c2_on_duplicate_short_circuit.1 pC2Witness (by decide) (by decide)

/-- C3 counterexample: `INSERT INTO a. (x) VALUES (1,2)` is an INSERT whose only
value row (length 2) differs from the declared field count (1), yet `Parse`
returns the empty-table-name validation error, not the insert-shape error,
because the table reference `a.` split to an empty table name and that check
runs first. -/
theorem spec_c3_counterexample :
    parse (normalizeOnce (normalizeOnce "INSERT INTO a. (x) VALUES (1,2)".data)) =
      .err qC3Counterexample errTableEmpty ∧
    Parse "INSERT INTO a. (x) VALUES (1,2)".data = .err {} errTableEmpty ∧
    qC3Counterexample.Typ = .insert ∧
    (["1".data, "2".data] ∈ qC3Counterexample.Inserts ∧
      (["1".data, "2".data] : List Str).length ≠ qC3Counterexample.Fields.length) ∧
    errTableEmpty ≠ errInsertShape := by
  refine ⟨by decide, by decide, by decide, ⟨by decide, by decide⟩, by decide⟩

/-- C3 amended: a value row whose length differs from the declared field count
always prevents `Parse` from succeeding; and whenever such an INSERT reaches
validation with a non-empty table name, no WHERE conditions, and the parser not
stopped at a WHERE field, the error is exactly the insert-shape error, even if
earlier rows matched. -/
theorem spec_c3_insert_shape_amended :
    (∀ (s : Str) (q : Query), Parse s = .ok q → q.Typ = .insert →
        ∀ r ∈ q.Inserts, r.length = q.Fields.length) ∧
    (∀ (st : Step) (q : Query), q.Typ = .insert → st ≠ .stepWhereField →
        q.TableName ≠ [] → q.Conditions = [] →
        (∃ r ∈ q.Inserts, r.length ≠ q.Fields.length) →
        validate st q = some errInsertShape) := by
  constructor
  · intro s q h hq
    obtain ⟨st, hv⟩ := parse_ok_validate _ _ (Parse_ok_parse _ _ h)
    exact validate_none_insertShape hv hq
  · intro st q hq hst ht hc hmis
    exact validate_insert_shape hq hst ht hc hmis

/-- Witness for the amended C3 at a concrete mismatched INSERT AST. -/
theorem spec_c3_insert_shape_amended_witness :
    validate .stepType qC3Witness = some errInsertShape :=
  spec_c3_insert_shape_amended.2 .stepType qC3Witness (by decide) (by decide)
    (by decide) (by decide) ⟨["1".data, "2".data], by decide, by decide⟩

/-- C4 counterexample: `DELETE FROM there WHERE` ends up a DELETE with zero
WHERE conditions, and `Parse` returns an error, but it is the empty-WHERE-clause
error (the parser stopped at the WHERE-field step), not the
missing-WHERE-for-mutation error the claim names. -/
theorem spec_c4_counterexample :
    parse (normalizeOnce (normalizeOnce "DELETE FROM there WHERE".data)) =
      .err qC4Counterexample errEmptyWhere ∧
    Parse "DELETE FROM there WHERE".data = .err {} errEmptyWhere ∧
    qC4Counterexample.Typ = .delete ∧ qC4Counterexample.Conditions = [] ∧
    errEmptyWhere ≠ errMandatoryWhere := by
  refine ⟨by decide, by decide, by decide, by decide, by decide⟩

/-- C4 amended: an UPDATE or DELETE that ends up with zero WHERE conditions
never parses successfully; and whenever it reaches validation with a non-empty
table name and the parser not stopped at a WHERE field, the error is exactly the
missing-WHERE-for-mutation error. -/
theorem spec_c4_mutation_requires_where_amended :
    (∀ (s : Str) (q : Query), Parse s = .ok q →
        (q.Typ = .update ∨ q.Typ = .delete) → q.Conditions ≠ []) ∧
    (∀ (st : Step) (q : Query), (q.Typ = .update ∨ q.Typ = .delete) →
        q.Conditions = [] → st ≠ .stepWhereField → q.TableName ≠ [] →
        validate st q = some errMandatoryWhere) := by
  constructor
  · intro s q h hor hnil
    obtain ⟨st, hv⟩ := parse_ok_validate _ _ (Parse_ok_parse _ _ h)
    exact validate_none_mutation hv hnil hor
  · intro st q hor hc hst ht
    exact validate_mandatory_where hor hc hst ht

/-- Witness for the amended C4 at the concrete DELETE AST with no conditions. -/
theorem spec_c4_mutation_requires_where_amended_witness :
    validate .stepType qC4Counterexample = some errMandatoryWhere :=
  spec_c4_mutation_requires_where_amended.2 .stepType qC4Counterexample
    (Or.inr (by decide)) (by decide) (by decide) (by decide)

/-- C5 counterexample: a SELECT TOP whose count token is not an integer does not
yield an error value returned to the caller; it reaches `log.Fatal`, modelled as
the `fatal` outcome, which is distinct from every error return. -/
theorem spec_c5_counterexample :
    Parse "SELECT TOP x a FROM t".data = .fatal fatalTopMsg ∧
    ParseResult.fatal fatalTopMsg ≠ ParseResult.err {} fatalTopMsg := by
  constructor <;> decide

/-- C5 amended: the `log.Fatal` process termination can arise only in the TOP
step (every other step either returns an error value to the caller or
continues); an ordinary failure such as an unknown statement type is returned
as an error, while a non-integer TOP count terminates the process. -/
theorem spec_c5_failures_returned_amended :
    (∀ (p : Parser) (m : Str), stepOnce p = .fatal m →
        p.step = .stepTop ∧ m = fatalTopMsg) ∧
    Parse "bogus and broken".data = .err {} errInvalidQueryType ∧
    Parse "SELECT TOP x a FROM t".data = .fatal fatalTopMsg :=
  ⟨stepOnce_fatal_only_top, by decide, by decide⟩

/-- Witness for the amended C5 at a concrete state whose step is `stepTop`. -/
theorem spec_c5_failures_returned_amended_witness :
    pC5Witness.step = .stepTop ∧ fatalTopMsg = fatalTopMsg :=
  spec_c5_failures_returned_amended.1 pC5Witness fatalTopMsg (by decide)

/-- C6: when the scanner sits on a single-quote with no later closing quote, the
quoted-string scan returns the empty token of length 0, the general token scan
does too, and the WHERE-value step then reports the missing-quoted-value error. -/
theorem spec_c6_unterminated_quote (p : Parser) (tail : Str)
    (hd : p.sql.drop p.i = '\'' :: tail) (h : ∀ c ∈ tail, c ≠ '\'') :
    peekQuoted p.sql p.i = ([], 0) ∧
    peekWithLength p.sql p.i = ([], 0) ∧
    (p.step = .stepWhereValue → stepOnce p = .ret p (some errWhereValue)) := by
  refine ⟨peekQuoted_unterminated hd h, peekWithLength_unterminated hd h, ?_⟩
  intro hstep
  simp only [stepOnce, hstep]
  exact runStepWhereValue_unterminated hd h

/-- Witness for C6 at the concrete state whose remaining input is an
unterminated quote. -/
theorem spec_c6_unterminated_quote_witness :
    peekQuoted pC6Witness.sql pC6Witness.i = ([], 0) ∧
    stepOnce pC6Witness = .ret pC6Witness (some errWhereValue) := by
  have hmain := spec_c6_unterminated_quote pC6Witness "abc".data (by decide) (by decide)
  exact ⟨hmain.1, hmain.2.2 rfl⟩

/-- C7: every query on which `Parse` succeeds has exactly as many ORDER BY
fields as ORDER BY directions. -/
theorem spec_c7_order_fields_dirs_parallel (s : Str) (q : Query)
    (h : Parse s = .ok q) : q.OrderFields.length = q.OrderDir.length :=
  (parse_ok_stateInv _ _ (Parse_ok_parse _ _ h)).1

/-- Witness for C7 at SELECT a FROM t ORDER BY a. -/
theorem spec_c7_order_fields_dirs_parallel_witness :
    Parse "SELECT a FROM t ORDER BY a".data = .ok qOrderBy ∧
    qOrderBy.OrderFields.length = qOrderBy.OrderDir.length :=
  ⟨by decide,
   spec_c7_order_fields_dirs_parallel "SELECT a FROM t ORDER BY a".data qOrderBy (by decide)⟩

/-- C8 counterexample: for `SELECT * FROM a.b.c` the claim requires the part
after the first dot, `b.c`, to become the table name; the code instead keeps
only the second dot-separated part, so the table name is `b`. -/
theorem spec_c8_counterexample :
    Parse "SELECT * FROM a.b.c".data = .ok qC8Counterexample ∧
    qC8Counterexample.TableName ≠ "b.c".data := by
  constructor <;> decide

/-- C8 amended: in all four table-reference steps (SELECT FROM, INSERT INTO,
UPDATE, DELETE FROM), a table token containing a dot is split on dots; the first
part becomes the database and the second part becomes the table name (any parts
after a second dot are discarded). -/
theorem spec_c8_table_split_amended (p : Parser) (tn : Str) (hpk : peek p = tn)
    (hdot : strContains tn ".".data = true)
    (hstep : p.step = .stepSelectFromTable ∨ p.step = .stepInsertTable ∨
             p.step = .stepUpdateTable ∨ p.step = .stepDeleteFromTable) :
    ∃ p', stepOnce p = .cont p' ∧
      p'.query.Database = (splitDot tn).headD [] ∧
      p'.query.TableName = (splitDot tn).getD 1 [] := by
  have hne : tn ≠ [] := by
    rintro rfl
    simp [strContains, startsWithStr] at hdot
  have hlen : ¬ tn.length = 0 := by simpa using hne
  rcases hstep with h | h | h | h <;> simp only [stepOnce, h]
  · simp only [runStepSelectFromTable, hpk]
    rw [if_neg hlen, if_pos hdot]
    repeat' split
    all_goals exact ⟨_, rfl, rfl, rfl⟩
  · simp only [runStepInsertTable, hpk]
    rw [if_neg hlen, if_pos hdot]
    exact ⟨_, rfl, rfl, rfl⟩
  · simp only [runStepUpdateTable, hpk]
    rw [if_neg hlen, if_pos hdot]
    exact ⟨_, rfl, rfl, rfl⟩
  · simp only [runStepDeleteFromTable, hpk]
    rw [if_neg hlen, if_pos hdot]
    exact ⟨_, rfl, rfl, rfl⟩

/-- Witness for the amended C8 at an UPDATE table reference `a.b`. -/
theorem spec_c8_table_split_amended_witness :
    ∃ p', stepOnce pC8Witness = .cont p' ∧
      p'.query.Database = (splitDot "a.b".data).headD [] ∧
      p'.query.TableName = (splitDot "a.b".data).getD 1 [] :=
  spec_c8_table_split_amended pC8Witness "a.b".data (by decide) (by decide)
    (Or.inr (Or.inr (Or.inl rfl)))

/-- C9: the lowercase statement `select start, end from there where this = that`
parses identically to its uppercase-keyword equivalent, and both succeed with
the expected AST: keyword matching is case-insensitive. -/
theorem spec_c9_case_insensitive_keywords :
    Parse "select start, end from there where this = that".data =
      Parse "SELECT start, end FROM there WHERE this = that".data ∧
    Parse "select start, end from there where this = that".data =
      .ok { Typ := .select, TableName := "there".data,
            Fields := ["start".data, "end".data],
            Conditions := [condThisEqThat] } := by
  constructor <;> decide

/-- C10: in every query on which `Parse` succeeds, each WHERE condition has its
left operand marked as a field and its right operand marked as a non-field. -/
theorem spec_c10_condition_operand_flags (s : Str) (q : Query)
    (h : Parse s = .ok q) :
    ∀ c ∈ q.Conditions, c.Operand1IsField = true ∧ c.Operand2IsField = false :=
  fun c hc => (parse_ok_stateInv _ _ (Parse_ok_parse _ _ h)).2 c hc

/-- Witness for C10 at scenario A, whose single condition has the flag shape. -/
theorem spec_c10_condition_operand_flags_witness :
    Parse "SELECT start, middle, end FROM there WHERE this = that".data = .ok qScenarioA ∧
    condThisEqThat.Operand1IsField = true ∧ condThisEqThat.Operand2IsField = false := by
  refine ⟨by decide, ?_⟩
  exact spec_c10_condition_operand_flags
    "SELECT start, middle, end FROM there WHERE this = that".data qScenarioA
    (by decide) condThisEqThat (by decide)

end SqlParser
